import Mathlib

/-!
Shallow embedding of the core of `poa-governance-notifications` (Rust).

Source files embedded here:
* `src/blockchain.rs` — `sleep_or_ctrlc`, `BlockchainIter::{new, next}`
* `src/client.rs`     — `RpcClient::get_voting_state` (control flow and effects)
* `src/error.rs`      — the `Error` enum
* `src/config.rs`     — `StartBlock`
* `src/response/common.rs` — `BallotType`, `BallotCreatedLog::from_ethabi_log`
* `src/rpc.rs`        — the signed reinterpretation of the vote `progress` field
                        in `impl From<Vec<Token>> for {Keys,Threshold}VotingData`
* `src/main.rs`       — the per-window merge-and-sort of notifications

Machine integers: Rust `u64` values are modelled as `Nat` with explicit
`% 2^64` where the source truncates (`low_u64`) or wraps (release-mode
subtraction overflow); `i64` results are modelled as `Int`.  Fallible Rust
code returns `Except`/an explicit outcome type; a Rust `panic`
(`unwrap` failure / `unreachable!`) is modelled by a dedicated constructor
so that crashing executions are distinguished from typed errors.
-/

namespace PoaGov

/-- The modulus `2^64` of Rust's `u64`. -/
def U64_MOD : Nat := 2 ^ 64

/-- The value `2^63`, used for the `i64` range: `i64::MAX = 2^63 - 1`. -/
def I63 : Nat := 2 ^ 63

/-- The `Error` enum from `src/error.rs`.  Payloads whose Rust types come
from external libraries (`ctrlc::Error`, `reqwest::Error`, …) carry no
information relevant to the claims and are modelled as payload-free
constructors; `String` and `u64` payloads are kept. -/
inductive Error where
  | ctrlcError
  | emissionFundsV1ContractDoesNotExist
  | envFileNotFound
  | failedToBuildEmail
  | failedToBuildRequest
  | failedToBuildTls
  | failedToParseBallotCreatedLog (msg : String)
  | failedToParseEnvFile
  | failedToParseRawLogToLog
  | failedToResolveSmtpHostDomain
  | failedToSendEmail
  | invalidAbi (s : String)
  | invalidBlockTime (s : String)
  | invalidContractAddr (s : String)
  | invalidNotificationLimit (s : String)
  | invalidSmtpPort (s : String)
  | invalidStartBlock (s : String)
  | invalidTail (s : String)
  | jsonRpcResponseFailure
  | missingAbiFile (s : String)
  | missingEnvVar (s : String)
  | mustSpecifyAtLeastOneCliArgument (s : String)
  | mustSpecifyOneCliArgument (s : String)
  | requestFailed
  | startBlockExceedsLastBlockMined (startBlock lastMinedBlock : Nat)
  deriving DecidableEq, Repr

/-- The `StartBlock` enum from `src/config.rs`. -/
inductive StartBlock where
  | earliest
  | latest
  | number (blockNumber : Nat)
  | tail (tail : Nat)
  deriving DecidableEq, Repr

/-- Wrapping `u64` subtraction, the release-mode semantics of Rust's
`a - b` on `u64` (debug builds panic on overflow instead; see the
discussion at the theorems about `BlockchainIter.new`). -/
def wrappingSub64 (a b : Nat) : Nat :=
  (a % U64_MOD + (U64_MOD - b % U64_MOD)) % U64_MOD

/-- The mutable state of `BlockchainIter` (`src/blockchain.rs`): the
`client`, `block_time` and `running` fields are external handles consulted
through the environment, so only the traversal state is kept. -/
structure IterState where
  startBlock : Nat
  stopBlock : Nat
  onFirstIteration : Bool
  deriving DecidableEq, Repr

/-- Constructor `BlockchainIter::new` (`src/blockchain.rs` lines 65–88).  The call
`client.get_last_mined_block_number()` is the only effect; its result is
passed in as `rpcResult`.  `StartBlock::Tail` performs the `u64`
subtraction `last_mined_block - tail`, modelled with release-mode
wrapping semantics. -/
def blockchainIterNew (startCfg : StartBlock) (rpcResult : Except Error Nat) :
    Except Error IterState := do
  let lastMinedBlock ← rpcResult
  let startBlock :=
    match startCfg with
    | .earliest => 0
    | .latest => lastMinedBlock
    | .number blockNumber => blockNumber
    | .tail tail => wrappingSub64 lastMinedBlock tail
  if startBlock > lastMinedBlock then
    .error (.startBlockExceedsLastBlockMined startBlock lastMinedBlock)
  else
    .ok { startBlock := startBlock, stopBlock := lastMinedBlock, onFirstIteration := true }

/-! ### The signed reinterpretation of the vote `progress` field

From `src/rpc.rs`, `impl From<Vec<Token>> for KeysVotingData` (lines
199–203) and `impl From<Vec<Token>> for ThresholdVotingData` (lines
249–253); both contain the identical match:

    let progress = match tokens[i].clone().to_int().unwrap().low_u64() {
        lsb if lsb <= total_voters => lsb as i64,
        lsb => i64::try_from(u64::MAX - lsb + 1).unwrap()
    };
-/

/-- Outcome of a Rust computation that can panic (`unwrap` failure,
`unreachable!`). -/
inductive RustResult (α : Type) where
  | ok (a : α)
  | panicked
  deriving DecidableEq, Repr

/-- Rust's `as i64` cast on a `u64` value: two's-complement wrapping. -/
def i64OfU64Wrap (n : Nat) : Int :=
  if n < I63 then (n : Int) else (n : Int) - (U64_MOD : Int)

/-- Rust's `i64::try_from(u64)`: succeeds iff the value is at most
`i64::MAX = 2^63 - 1`. -/
def i64TryFromU64 (n : Nat) : Option Int :=
  if n ≤ I63 - 1 then some (n : Int) else none

/-- The `progress` computation shared by `KeysVotingData` and
`ThresholdVotingData` in `src/rpc.rs`.  `raw` is the `U256` returned by
`to_int().unwrap()` (`low_u64()` keeps its low 64 bits) and `totalVoters`
is the already-extracted `u64` field.  In the second match arm
`u64::MAX - lsb + 1` is `(2^64 - 1) - lsb + 1 = 2^64 - lsb` (no `u64`
overflow there: `lsb > total_voters ≥ 0` forces `lsb ≥ 1`). -/
def signedProgress (raw totalVoters : Nat) : RustResult Int :=
  let lsb := raw % U64_MOD
  if lsb ≤ totalVoters then
    .ok (i64OfU64Wrap lsb)
  else
    match i64TryFromU64 ((U64_MOD - 1) - lsb + 1) with
    | some v => .ok v
    | none => .panicked

/-! ### `BallotCreated` event-log decoding (`src/response/common.rs`) -/

/-- The `BallotType` enum from `src/response/common.rs` (seven variants,
on-chain codes 0–6). -/
inductive BallotType where
  | invalidKey
  | addKey
  | removeKey
  | swapKey
  | threshold
  | proxy
  | emission
  deriving DecidableEq, Repr

/-- Conversion `impl From<H256> for BallotType` (`src/response/common.rs` lines
77–90): matches on `topic.low_u64()`; codes 0–6 map to the variants and
anything else hits `unreachable!`, i.e. panics. -/
def BallotType.fromTopic (topic : Nat) : RustResult BallotType :=
  match topic % U64_MOD with
  | 0 => .ok .invalidKey
  | 1 => .ok .addKey
  | 2 => .ok .removeKey
  | 3 => .ok .swapKey
  | 4 => .ok .threshold
  | 5 => .ok .proxy
  | 6 => .ok .emission
  | _ => .panicked

/-- The subset of `ethabi::Token` reaching the decoders embedded here.
`to_uint`/`to_address` succeed only on the matching constructor, as in
`ethabi`. -/
inductive EthToken where
  | uint (n : Nat)
  | address (a : Nat)
  | int (n : Nat)
  | boolean (b : Bool)
  | str (s : String)
  deriving DecidableEq, Repr

/-- Accessor `ethabi::Token::to_uint`. -/
def EthToken.toUint : EthToken → Option Nat
  | .uint n => some n
  | _ => none

/-- Accessor `ethabi::Token::to_address`. -/
def EthToken.toAddress : EthToken → Option Nat
  | .address a => some a
  | _ => none

/-- The decoded `BallotCreatedLog` record (`src/response/common.rs` lines
105–111).  Ethereum addresses are modelled as naturals below `2^160`. -/
structure BallotCreatedLog where
  blockNumber : Nat
  ballotId : Nat
  ballotType : BallotType
  creator : Nat
  deriving DecidableEq, Repr

/-- Outcome of a decoder that can return a typed `Error` or panic. -/
inductive DecodeOutcome (α : Type) where
  | ok (a : α)
  | err (e : Error)
  | panicked
  deriving DecidableEq, Repr

/-- The parameter-folding loop of `BallotCreatedLog::from_ethabi_log`:
walks the `ethabi::Log`'s `params` in order, filling the three optional
fields.  An unrecognized parameter name hits `unreachable!` (panic), and
a `ballotType` parameter whose `U256` value has low 64 bits outside 0–6
panics inside `BallotType::from` (via `H256::low_u64`). -/
def collectBallotParams :
    List (String × EthToken) → Option Nat → Option BallotType → Option Nat →
    RustResult (Option Nat × Option BallotType × Option Nat)
  | [], ballotId, ballotType, creator => .ok (ballotId, ballotType, creator)
  | (name, value) :: rest, ballotId, ballotType, creator =>
    if name = "id" then
      collectBallotParams rest value.toUint ballotType creator
    else if name = "ballotType" then
      match value.toUint with
      | none => collectBallotParams rest ballotId none creator
      | some u =>
        match BallotType.fromTopic u with
        | .ok bt => collectBallotParams rest ballotId (some bt) creator
        | .panicked => .panicked
    else if name = "creator" then
      collectBallotParams rest ballotId ballotType value.toAddress
    else
      .panicked

/-- Decoder `BallotCreatedLog::from_ethabi_log` (`src/response/common.rs` lines
113–140): fold the params, then report the first missing required field
as a `FailedToParseBallotCreatedLog` error. -/
def ballotCreatedFromEthabiLog (params : List (String × EthToken)) (blockNumber : Nat) :
    DecodeOutcome BallotCreatedLog :=
  match collectBallotParams params none none none with
  | .panicked => .panicked
  | .ok (ballotId, ballotType, creator) =>
    match ballotId with
    | none => .err (.failedToParseBallotCreatedLog ("missing `id`"))
    | some ballotId =>
      match ballotType with
      | none => .err (.failedToParseBallotCreatedLog ("missing `ballot_type`"))
      | some ballotType =>
        match creator with
        | none => .err (.failedToParseBallotCreatedLog ("missing `creator`"))
        | some creator =>
          .ok { ballotId := ballotId, ballotType := ballotType,
                creator := creator, blockNumber := blockNumber }

/-! ### `RpcClient::get_voting_state` (`src/client.rs` lines 133–163)

Only the control flow and the network effect matter for the claims: the
function builds the `eth_call` request, sends it (the network round
trip), hex-decodes and ABI-decodes the string response, and only then
matches on `contract.kind`, where `ContractType::Emission` produces
`Error::EmissionFundsV1ContractDoesNotExist`.  The environment supplies
the outcome of each external step. -/

/-- The `ContractType` enum from `src/config.rs`. -/
inductive ContractType where
  | keys
  | threshold
  | proxy
  | emission
  deriving DecidableEq, Repr

/-- Shape of the JSON value returned by `send` (only string-ness is
inspected by `get_voting_state`; a non-string hits `unreachable!`). -/
inductive JsonShape where
  | str
  | nonStr
  deriving DecidableEq, Repr

/-- The decoded `VotingState` of `src/response/v1.rs`, indexed by the
output tokens of the `votingState` call.  The per-field token extraction
of `v1.rs` is not consulted by any claim settled here, so each variant
keeps the raw output tokens it is built from. -/
inductive VotingState where
  | keys (outputs : List EthToken)
  | threshold (outputs : List EthToken)
  | proxy (outputs : List EthToken)
  deriving DecidableEq, Repr

/-- Results of the external steps of one `get_voting_state` call, in
program order: `build_request`, `send` (the network call), `hex::decode`
on the trimmed response string, `function.decode_output` on the bytes.
Each later field is consulted only if the earlier steps succeeded. -/
structure EthCallEnv where
  buildResult : Except Error Unit
  sendResult : Except Error JsonShape
  hexDecoded : Option (List Nat)
  decodedOutputs : Option (List EthToken)
  deriving Repr

/-- The call `RpcClient::get_voting_state`, returning the number of network calls
attempted (0 or 1) together with the outcome.  `hex::decode(..).unwrap()`
and `function.decode_output(..).unwrap()` panic on failure, as does the
`unreachable!` for a non-string JSON response.  The `contract.kind` match
runs only after all of that. -/
def getVotingState (kind : ContractType) (env : EthCallEnv) :
    Nat × DecodeOutcome VotingState :=
  match env.buildResult with
  | .error e => (0, .err e)
  | .ok _ =>
    match env.sendResult with
    | .error e => (1, .err e)
    | .ok .nonStr => (1, .panicked)
    | .ok .str =>
      match env.hexDecoded with
      | none => (1, .panicked)
      | some _ =>
        match env.decodedOutputs with
        | none => (1, .panicked)
        | some outputs =>
          match kind with
          | .keys => (1, .ok (.keys outputs))
          | .threshold => (1, .ok (.threshold outputs))
          | .proxy => (1, .ok (.proxy outputs))
          | .emission => (1, .err .emissionFundsV1ContractDoesNotExist)

/-! ### `BlockchainIter` (`src/blockchain.rs`)

The iterator's interactions with the outside world are:

* `sleep_or_ctrlc(block_time, running)` — a foreground loop that
  repeatedly loads the `done_sleeping` flag (set by a background timer
  thread after `block_time` seconds) and the shared `running` flag.  Each
  loop iteration is one observation pair `(done_sleeping, running)`; the
  scheduling of the two threads determines the observed sequence.
* `client.get_last_mined_block_number()` — a fallible RPC call.
* the final `self.running.load(..)` before emitting a window.

Each of these is supplied by an environment value, so one `next()` call
is a pure function of the iterator state and its environment. -/

/-- The `SleepExit` enum from `src/blockchain.rs`. -/
inductive SleepExit where
  | ctrlc
  | finishedSleeping
  deriving DecidableEq, Repr

/-- The function `sleep_or_ctrlc` (`src/blockchain.rs` lines 25–41) as a function of
the observation schedule: `while !done_sleeping { if !running { return
CtrlC } }; FinishedSleeping`.  Each schedule entry is the pair
`(done_sleeping, running)` loaded in one iteration of the foreground
loop; `none` means the schedule ended while the loop was still spinning
(the call has not returned yet). -/
def sleepOrCtrlc : List (Bool × Bool) → Option SleepExit
  | [] => none
  | (doneSleeping, running) :: rest =>
    if doneSleeping then some .finishedSleeping
    else if !running then some .ctrlc
    else sleepOrCtrlc rest

/-- Environment of one iteration of the advance loop in
`BlockchainIter::next`: the sleep's observation schedule, and the result
of the `get_last_mined_block_number` re-query (consulted only when the
sleep finished). -/
structure LoopIter where
  sleepSched : List (Bool × Bool)
  pollResult : Except Error Nat

/-- How the `while self.start_block >= self.stop_block` loop of
`BlockchainIter::next` (lines 98–106) ended. -/
inductive AdvanceResult where
  | ctrlcExit (stop : Nat)
  | rpcErr (e : Error) (stop : Nat)
  | exited (stop : Nat)
  | stuck
  deriving DecidableEq, Repr

/-- The advance loop of `BlockchainIter::next`: while `start ≥ stop`,
sleep (returning `None` on ctrl-c), then re-query the last mined block,
returning the error immediately on failure and otherwise storing the
result in `stop`.  `start` is never written inside the loop.  `stuck`
models an execution whose environment trace ends while the loop is still
running (no return from `next` yet). -/
def runAdvanceLoop (start : Nat) : Nat → List LoopIter → AdvanceResult
  | stop, [] => if start < stop then .exited stop else .stuck
  | stop, l :: rest =>
    if start < stop then .exited stop
    else
      match sleepOrCtrlc l.sleepSched with
      | none => .stuck
      | some .ctrlc => .ctrlcExit stop
      | some .finishedSleeping =>
        match l.pollResult with
        | .error e => .rpcErr e stop
        | .ok lastMined => runAdvanceLoop start lastMined rest

/-- Environment of one `next()` call: the advance loop's per-iteration
environments, and the value of the `running` flag at the final
pre-emission check (line 108). -/
structure NextEnv where
  loops : List LoopIter
  runningAtEmit : Bool

/-- Result of one `next()` call, carrying the iterator state left
behind: `retWindow` is `Some(Ok(window))`, `retErr` is `Some(Err(e))`,
`retNone` is `None`, and `stuck` means the call never returned within
the supplied environment trace. -/
inductive NextResult where
  | retWindow (w : Nat × Nat) (st : IterState)
  | retErr (e : Error) (st : IterState)
  | retNone (st : IterState)
  | stuck
  deriving DecidableEq, Repr

/-- The final `if self.running.load(..)` check of
`BlockchainIter::next` (lines 108–113). -/
def emitCheck (st : IterState) (runningAtEmit : Bool) : NextResult :=
  if runningAtEmit then .retWindow (st.startBlock, st.stopBlock) st else .retNone st

/-- The step `BlockchainIter::next` (`src/blockchain.rs` lines 93–114).  On the
first iteration the flag is cleared and the loop is skipped; afterwards
`start_block` is set to `stop_block + 1` and the advance loop runs
(always at least one iteration, since `stop + 1 ≥ stop`). -/
def BlockchainIter.next (st : IterState) (env : NextEnv) : NextResult :=
  if st.onFirstIteration then
    emitCheck { st with onFirstIteration := false } env.runningAtEmit
  else
    match runAdvanceLoop (st.stopBlock + 1) st.stopBlock env.loops with
    | .stuck => .stuck
    | .ctrlcExit stop =>
      .retNone { startBlock := st.stopBlock + 1, stopBlock := stop, onFirstIteration := false }
    | .rpcErr e stop =>
      .retErr e { startBlock := st.stopBlock + 1, stopBlock := stop, onFirstIteration := false }
    | .exited stop =>
      emitCheck { startBlock := st.stopBlock + 1, stopBlock := stop, onFirstIteration := false }
        env.runningAtEmit

/-- The state a `next()` call leaves behind (the call's mutations of the
`BlockchainIter` fields); `none` for a call that never returned. -/
def NextResult.state : NextResult → Option IterState
  | .retWindow _ st => some st
  | .retErr _ st => some st
  | .retNone st => some st
  | .stuck => none

/-- Whether the call returned `Some(Ok(window))`. -/
def NextResult.isWindow : NextResult → Bool
  | .retWindow _ _ => true
  | _ => false

/-- Drive the iterator through a sequence of `next()` calls, one
environment per call, collecting each call's result.  A call that never
returns ends the run. -/
def runCalls : IterState → List NextEnv → List NextResult
  | _, [] => []
  | st, env :: rest =>
    match BlockchainIter.next st env with
    | .stuck => [.stuck]
    | .retWindow w st' => .retWindow w st' :: runCalls st' rest
    | .retErr e st' => .retErr e st' :: runCalls st' rest
    | .retNone st' => .retNone st' :: runCalls st' rest

/-- The windows emitted during a run, in order. -/
def windowsOf (results : List NextResult) : List (Nat × Nat) :=
  results.filterMap fun r =>
    match r with
    | .retWindow w _ => some w
    | _ => none

/-- The shared cancellation flag read `false` throughout an environment:
at the final pre-emission check and at every `running` load inside every
sleep.  (The flag is monotone in the program — the ctrl-c handler only
ever stores `false` — so this is what holds for every call after
cancellation.) -/
def NextEnv.allCancelled (env : NextEnv) : Prop :=
  env.runningAtEmit = false ∧
    ∀ l ∈ env.loops, ∀ ob ∈ l.sleepSched, ob.2 = false

instance (env : NextEnv) : Decidable env.allCancelled := by
  unfold NextEnv.allCancelled; infer_instance

/-! ### The per-window merge and sort of notifications (`src/main.rs`)

`main` (lines 98–136) collects, for each monitored contract in order,
the `Notification`s for the ballot-created logs found in the current
window, pushing them all into one `notifications` vector, and then sorts
that vector with
`notifications.sort_unstable_by(|n1, n2| n1.log().block_number.cmp(&n2.log().block_number))`
before handing any of them to the notifier.  `Notification::log()`
returns the originating `BallotCreatedLog` (the notification pairs the
decoded state with its log; its other fields never affect the order).
The sort is modelled with `List.mergeSort`, which produces exactly what
`sort_unstable_by` guarantees: a permutation sorted by the comparator. -/

/-- A notification as ordered by `main`: its originating
`BallotCreatedLog` together with the decoded payload it delivers (opaque
to the sort). -/
structure Notification where
  log : BallotCreatedLog
  payload : String
  deriving DecidableEq, Repr

/-- The comparator of `main.rs` lines 124–126: ascending `block_number`
of the originating log. -/
def notifLe (n1 n2 : Notification) : Prop :=
  n1.log.blockNumber ≤ n2.log.blockNumber

instance : DecidableRel notifLe := fun n1 n2 => by
  unfold notifLe; infer_instance

/-- The merge-and-sort of one block window: concatenate the per-contract
notification lists in contract order, then sort by ascending block
number.  `sort_unstable_by` guarantees exactly a permutation of its
input that is sorted by the comparator, which is what the sort used here
produces (and what the theorems below state). -/
def mergeWindowNotifications (perContract : List (List Notification)) : List Notification :=
  (perContract.flatten).insertionSort notifLe

/-! ### Supporting lemmas -/

/-- A successfully constructed iterator starts on its first iteration
with `start_block ≤ stop_block = last_mined_block` (the constructor
rejects `start_block > last_mined_block`). -/
theorem blockchainIterNew_ok_inv {cfg : StartBlock} {last : Nat} {st : IterState}
    (h : blockchainIterNew cfg (.ok last) = .ok st) :
    st.onFirstIteration = true ∧ st.startBlock ≤ st.stopBlock ∧ st.stopBlock = last := by
  unfold blockchainIterNew at h
  simp only [bind, Except.bind] at h
  split at h
  · exact nomatch h
  · rename_i hle
    cases h
    exact ⟨rfl, Nat.le_of_not_lt hle, rfl⟩

/-- If the advance loop exits normally, the final `stop_block` strictly
exceeds the (never rewritten) `start_block`. -/
theorem runAdvanceLoop_exited_lt {start stop' : Nat} :
    ∀ {loops : List LoopIter} {stop : Nat},
    runAdvanceLoop start stop loops = .exited stop' → start < stop' := by
  intro loops
  induction loops with
  | nil =>
    intro stop h
    unfold runAdvanceLoop at h
    split at h
    · cases h; assumption
    · exact nomatch h
  | cons l rest ih =>
    intro stop h
    unfold runAdvanceLoop at h
    split at h
    · cases h; assumption
    · cases hs : sleepOrCtrlc l.sleepSched with
      | none => rw [hs] at h; exact nomatch h
      | some se =>
        rw [hs] at h
        cases se with
        | ctrlc => exact nomatch h
        | finishedSleeping =>
          cases hp : l.pollResult with
          | error e => rw [hp] at h; exact nomatch h
          | ok n => rw [hp] at h; exact ih h

/-- If the advance loop surfaces an RPC error, the `stop_block` it leaves
behind is either the value it entered with (error on the first re-query)
or the result of some successful re-query of this call. -/
theorem runAdvanceLoop_rpcErr_stop {start : Nat} {e : Error} {stop' : Nat} :
    ∀ {loops : List LoopIter} {stop : Nat},
    runAdvanceLoop start stop loops = .rpcErr e stop' →
    stop' = stop ∨ ∃ l ∈ loops, l.pollResult = .ok stop' := by
  intro loops
  induction loops with
  | nil =>
    intro stop h
    unfold runAdvanceLoop at h
    split at h
    · exact nomatch h
    · exact nomatch h
  | cons l rest ih =>
    intro stop h
    unfold runAdvanceLoop at h
    split at h
    · exact nomatch h
    · cases hs : sleepOrCtrlc l.sleepSched with
      | none => rw [hs] at h; exact nomatch h
      | some se =>
        rw [hs] at h
        cases se with
        | ctrlc => exact nomatch h
        | finishedSleeping =>
          cases hp : l.pollResult with
          | error e2 =>
            rw [hp] at h
            cases h
            exact .inl rfl
          | ok n =>
            rw [hp] at h
            rcases ih h with hstop | ⟨l2, hl2, hp2⟩
            · exact .inr ⟨l, by simp, by rw [hp, hstop]⟩
            · exact .inr ⟨l2, by simp [hl2], hp2⟩

/-- A window emitted by a non-first call starts at the entering
`stop_block + 1`, is strictly increasing, and is exactly the state the
call leaves behind. -/
theorem next_later_window {st : IterState} {env : NextEnv} {w : Nat × Nat} {st' : IterState}
    (hfirst : st.onFirstIteration = false)
    (h : BlockchainIter.next st env = .retWindow w st') :
    w.1 = st.stopBlock + 1 ∧ w.1 < w.2 ∧
      st' = ⟨w.1, w.2, false⟩ := by
  unfold BlockchainIter.next at h
  rw [hfirst] at h
  simp only [Bool.false_eq_true, if_false] at h
  split at h
  · exact nomatch h
  · exact nomatch h
  · exact nomatch h
  · rename_i stop hloop
    unfold emitCheck at h
    split at h
    · cases h
      exact ⟨rfl, runAdvanceLoop_exited_lt hloop, rfl⟩
    · exact nomatch h

/-- A window emitted by the first call is the constructor-provided
`(start_block, stop_block)` pair. -/
theorem next_first_window {st : IterState} {env : NextEnv} {w : Nat × Nat} {st' : IterState}
    (hfirst : st.onFirstIteration = true)
    (h : BlockchainIter.next st env = .retWindow w st') :
    w = (st.startBlock, st.stopBlock) ∧ st' = ⟨st.startBlock, st.stopBlock, false⟩ := by
  unfold BlockchainIter.next at h
  rw [hfirst] at h
  simp only [if_true] at h
  unfold emitCheck at h
  split at h
  · cases h
    exact ⟨rfl, rfl⟩
  · exact nomatch h

/-- A topic value whose low 64 bits are at most 6 converts to some
`BallotType`. -/
theorem fromTopic_ok_of_le {t : Nat} (h : t % U64_MOD ≤ 6) :
    ∃ bt, BallotType.fromTopic t = .ok bt := by
  unfold BallotType.fromTopic
  generalize hg : t % U64_MOD = m at h
  interval_cases m <;> exact ⟨_, rfl⟩

/-- A topic value whose low 64 bits exceed 6 hits the `unreachable!` arm
of `impl From<H256> for BallotType`. -/
theorem fromTopic_panic_of_gt {t : Nat} (h : 6 < t % U64_MOD) :
    BallotType.fromTopic t = .panicked := by
  unfold BallotType.fromTopic
  generalize hg : t % U64_MOD = m at h
  obtain ⟨k, rfl⟩ : ∃ k, m = k + 7 := ⟨m - 7, by omega⟩
  rfl

/-- The parameter fold of `from_ethabi_log` cannot panic when every
parameter name is one of the three recognized names and every
`ballotType` value carries an in-range (≤ 6) low-64-bit code. -/
theorem collectBallotParams_no_panic :
    ∀ (params : List (String × EthToken)) (i : Option Nat) (t : Option BallotType)
      (c : Option Nat),
    (∀ p ∈ params, p.1 = "id" ∨ p.1 = "ballotType" ∨ p.1 = "creator") →
    (∀ p ∈ params, p.1 = "ballotType" → ∀ u, p.2 = EthToken.uint u → u % U64_MOD ≤ 6) →
    collectBallotParams params i t c ≠ .panicked := by
  intro params
  induction params with
  | nil =>
    intro i t c _ _ h
    exact nomatch h
  | cons p rest ih =>
    intro i t c hnames htypes h
    obtain ⟨name, value⟩ := p
    unfold collectBallotParams at h
    rcases hnames (name, value) (by simp) with h1 | h2 | h3
    · subst h1
      rw [if_pos rfl] at h
      exact ih _ _ _ (fun q hq => hnames q (by simp [hq]))
        (fun q hq => htypes q (by simp [hq])) h
    · subst h2
      rw [if_neg (by decide), if_pos rfl] at h
      cases value with
      | uint u =>
        have hu : u % U64_MOD ≤ 6 := htypes ("ballotType", .uint u) (by simp) rfl u rfl
        obtain ⟨bt, hbt⟩ := fromTopic_ok_of_le hu
        simp only [EthToken.toUint, hbt] at h
        exact ih _ _ _ (fun q hq => hnames q (by simp [hq]))
          (fun q hq => htypes q (by simp [hq])) h
      | address a =>
        simp only [EthToken.toUint] at h
        exact ih _ _ _ (fun q hq => hnames q (by simp [hq]))
          (fun q hq => htypes q (by simp [hq])) h
      | int n =>
        simp only [EthToken.toUint] at h
        exact ih _ _ _ (fun q hq => hnames q (by simp [hq]))
          (fun q hq => htypes q (by simp [hq])) h
      | boolean b =>
        simp only [EthToken.toUint] at h
        exact ih _ _ _ (fun q hq => hnames q (by simp [hq]))
          (fun q hq => htypes q (by simp [hq])) h
      | str s =>
        simp only [EthToken.toUint] at h
        exact ih _ _ _ (fun q hq => hnames q (by simp [hq]))
          (fun q hq => htypes q (by simp [hq])) h
    · subst h3
      rw [if_neg (by decide), if_neg (by decide), if_pos rfl] at h
      exact ih _ _ _ (fun q hq => hnames q (by simp [hq]))
        (fun q hq => htypes q (by simp [hq])) h

/-! ### Claim theorems -/

/-- C7: constructing the iterator with `StartBlock::Number(n)` where `n`
exceeds the current last-mined block fails with
`StartBlockExceedsLastBlockMined { start_block: n, last_mined_block }`,
and no iterator value exists, so zero windows are ever emitted. -/
theorem c7_number_exceeds_last (n last : Nat) (h : last < n) :
    blockchainIterNew (.number n) (.ok last) =
      .error (.startBlockExceedsLastBlockMined n last) ∧
    ∀ st : IterState, blockchainIterNew (.number n) (.ok last) ≠ .ok st := by
  have heq : blockchainIterNew (.number n) (.ok last) =
      .error (.startBlockExceedsLastBlockMined n last) := by
    unfold blockchainIterNew
    simp only [bind, Except.bind]
    rw [if_pos h]
  exact ⟨heq, fun st hcontra => nomatch heq ▸ hcontra⟩

/-- C7 witness: `Number(6)` against last-mined block `5`. -/
theorem c7_number_exceeds_last_witness :
    blockchainIterNew (.number 6) (.ok 5) =
      .error (.startBlockExceedsLastBlockMined 6 5) :=
  (c7_number_exceeds_last 6 5 (by decide)).1

/-- C6 counterexample: with `Tail(10)` against last-mined block `5`, the
code does not fail with any "Underflow" error (no such variant exists in
`Error`): the `u64` subtraction `5 - 10` wraps to `2^64 - 5`, and
construction fails with `StartBlockExceedsLastBlockMined` whose carried
start block `2^64 - 5` lies far beyond the last mined block `5` — i.e. a
wrapped-around start block, which the claim explicitly excludes.  (Debug
builds would panic on the subtraction overflow instead — a crash, which
the claim also excludes.) -/
theorem c6_tail_counterexample :
    blockchainIterNew (.tail 10) (.ok 5) =
      .error (.startBlockExceedsLastBlockMined (U64_MOD - 5) 5) ∧
    5 < U64_MOD - 5 := ⟨rfl, by decide⟩

/-- C6 (amended): when `k` exceeds the last-mined block, constructing
the iterator does fail with a reported error rather than returning an
iterator, but the error is `StartBlockExceedsLastBlockMined` carrying
the wrapped-around start block `last + (2^64 - k)` (release-mode `u64`
wrapping; debug builds panic on the subtraction) — not an `Underflow`
error, which does not exist in the `Error` type. -/
theorem c6_tail_underflow_behavior (k last : Nat)
    (hk : k < U64_MOD) (hl : last < U64_MOD) (h : last < k) :
    blockchainIterNew (.tail k) (.ok last) =
      .error (.startBlockExceedsLastBlockMined (last + (U64_MOD - k)) last) := by
  have hw : wrappingSub64 last k = last + (U64_MOD - k) := by
    unfold wrappingSub64
    rw [Nat.mod_eq_of_lt hl, Nat.mod_eq_of_lt hk, Nat.mod_eq_of_lt (by omega)]
  unfold blockchainIterNew
  simp only [bind, Except.bind]
  rw [hw, if_pos (by omega)]

/-- C6 witness: `Tail(10)` against last-mined block `5`. -/
theorem c6_tail_underflow_behavior_witness :
    blockchainIterNew (.tail 10) (.ok 5) =
      .error (.startBlockExceedsLastBlockMined (5 + (U64_MOD - 10)) 5) :=
  c6_tail_underflow_behavior 10 5 (by decide) (by decide) (by decide)

/-- C5 counterexample: for raw value `2^64 - 1` (two's-complement `-1`)
and `total_voters = 0`, the low 64 bits `v = 2^64 - 1` exceed
`total_voters`, so the claim demands the result `v - 2^64 = -1`; the
code instead produces `i64::try_from(u64::MAX - v + 1) = +1`, the
negation of the claimed value. -/
theorem c5_progress_sign_counterexample :
    signedProgress (U64_MOD - 1) 0 = .ok 1 ∧
    ((U64_MOD - 1 : Nat) : Int) - (U64_MOD : Int) = -1 ∧
    signedProgress (U64_MOD - 1) 0 ≠ .ok (-1) := by
  refine ⟨by decide, by decide, by decide⟩

/-- C5 (amended): with `v` the low 64 bits of the raw value, the
`progress` computation of `src/rpc.rs` satisfies: if `v ≤ total_voters`
the result is `v as i64` (the count `v` when `v < 2^63`, else the
wrapped negative `v - 2^64`); if `v > total_voters` and `v > 2^63` the
result is the positive magnitude `2^64 - v` (the negation of the
two's-complement value `v - 2^64`); and if `total_voters < v ≤ 2^63` the
`i64::try_from(..).unwrap()` fails, i.e. the code panics. -/
theorem c5_progress_behavior (raw totalVoters : Nat) :
    (raw % U64_MOD ≤ totalVoters →
      signedProgress raw totalVoters =
        .ok (if raw % U64_MOD < I63 then ((raw % U64_MOD : Nat) : Int)
             else ((raw % U64_MOD : Nat) : Int) - (U64_MOD : Int))) ∧
    (totalVoters < raw % U64_MOD → I63 < raw % U64_MOD →
      signedProgress raw totalVoters =
        .ok ((U64_MOD : Int) - ((raw % U64_MOD : Nat) : Int))) ∧
    (totalVoters < raw % U64_MOD → raw % U64_MOD ≤ I63 →
      signedProgress raw totalVoters = .panicked) := by
  have hvlt : raw % U64_MOD < U64_MOD := Nat.mod_lt _ (by norm_num [U64_MOD])
  have hMI : U64_MOD = 2 * I63 := by norm_num [U64_MOD, I63]
  have hIpos : 0 < I63 := by norm_num [I63]
  refine ⟨?_, ?_, ?_⟩
  · intro h
    unfold signedProgress i64OfU64Wrap
    rw [if_pos h]
  · intro h1 h2
    unfold signedProgress i64TryFromU64
    rw [if_neg (by omega)]
    have harg : (U64_MOD - 1) - raw % U64_MOD + 1 = U64_MOD - raw % U64_MOD := by omega
    rw [harg, if_pos (by omega)]
    rw [Nat.cast_sub (le_of_lt hvlt)]
  · intro h1 h2
    unfold signedProgress i64TryFromU64
    rw [if_neg (by omega)]
    have harg : (U64_MOD - 1) - raw % U64_MOD + 1 = U64_MOD - raw % U64_MOD := by omega
    rw [harg, if_neg (by omega)]

/-- C5 witness: the overflow branch at raw value `2^64 - 1`,
`total_voters = 0`. -/
theorem c5_progress_behavior_witness :
    signedProgress (U64_MOD - 1) 0 =
      .ok ((U64_MOD : Int) - (((U64_MOD - 1) % U64_MOD : Nat) : Int)) :=
  (c5_progress_behavior (U64_MOD - 1) 0).2.1 (by decide) (by decide)

/-- C3 counterexample: with every external step succeeding, the
`(Emission, V1)` call does fail with
`EmissionFundsV1ContractDoesNotExist`, but only after one `eth_call`
network round trip has been attempted (`1 ≠ 0`), refuting "the failure
occurs before any network call is attempted". -/
theorem c3_emission_counterexample :
    getVotingState .emission ⟨.ok (), .ok .str, some [], some []⟩ =
      (1, .err .emissionFundsV1ContractDoesNotExist) ∧
    (1 : Nat) ≠ 0 := ⟨rfl, by decide⟩

/-- C3 (amended): requesting the V1 voting state for an `Emission`
contract never yields a voting state; when the `eth_call` round trip
succeeds with a decodable string response the error is exactly
`EmissionFundsV1ContractDoesNotExist` — but the kind check runs only
after the network call (one request is attempted whenever the request
can be built; a failed round trip surfaces its own error instead). -/
theorem c3_emission_v1_behavior (env : EthCallEnv) :
    (∀ vs : VotingState, (getVotingState .emission env).2 ≠ .ok vs) ∧
    (env.buildResult = .ok () → (getVotingState .emission env).1 = 1) ∧
    (env.buildResult = .ok () → env.sendResult = .ok .str →
      env.hexDecoded.isSome = true → env.decodedOutputs.isSome = true →
      getVotingState .emission env = (1, .err .emissionFundsV1ContractDoesNotExist)) := by
  obtain ⟨b, s, hx, d⟩ := env
  refine ⟨?_, ?_, ?_⟩
  · intro vs hcontra
    cases b with
    | error e => exact nomatch hcontra
    | ok u =>
      cases s with
      | error e => exact nomatch hcontra
      | ok shape =>
        cases shape with
        | nonStr => exact nomatch hcontra
        | str =>
          cases hx with
          | none => exact nomatch hcontra
          | some bytes =>
            cases d with
            | none => exact nomatch hcontra
            | some outs => exact nomatch hcontra
  · intro hb
    cases hb
    cases s with
    | error e => rfl
    | ok shape =>
      cases shape with
      | nonStr => rfl
      | str =>
        cases hx with
        | none => rfl
        | some bytes =>
          cases d with
          | none => rfl
          | some outs => rfl
  · intro hb hs hhx hd
    cases hb
    cases hs
    cases hx with
    | none => exact nomatch hhx
    | some bytes =>
      cases d with
      | none => exact nomatch hd
      | some outs => rfl

/-- C3 witness: the all-steps-succeed environment. -/
theorem c3_emission_v1_behavior_witness :
    getVotingState .emission ⟨.ok (), .ok .str, some [], some []⟩ =
      (1, .err .emissionFundsV1ContractDoesNotExist) :=
  (c3_emission_v1_behavior ⟨.ok (), .ok .str, some [], some []⟩).2.2 rfl rfl rfl rfl

/-- C4 counterexample: a log with ballot-type topic value `7` (outside
the seven known codes 0–6) makes the decoder panic (`unreachable!`), and
so does a log containing the unrecognized field name `"foo"` — in both
cases a crash, not the malformed-event-log decode error the claim
demands. -/
theorem c4_decode_counterexample :
    ballotCreatedFromEthabiLog
        [("id", .uint 1), ("ballotType", .uint 7), ("creator", .address 2)] 10 = .panicked ∧
    ballotCreatedFromEthabiLog [("foo", .uint 0)] 10 = .panicked := by
  exact ⟨by decide, by decide⟩

/-- C4 (amended): decoding a `BallotCreated` event log returns a
well-formed `BallotCreatedLog` or a typed
`FailedToParseBallotCreatedLog` error for a *missing* required field,
and an in-range ballot-type code is decoded to its exact variant (never
silently defaulted); but a log containing an unrecognized field name, or
a ballot-type value outside the seven known codes 0–6, aborts via
`unreachable!` (a panic/crash), not a decode error.  Conjuncts: (1) with
only recognized names and in-range ballot-type codes the decoder never
panics; (2) a ballot-type code above 6 panics; (3) an unrecognized field
name panics; (4) a log with no params fails with the missing-`id` decode
error; (5) a complete well-formed log decodes exactly. -/
theorem c4_ballot_decode_behavior (params : List (String × EthToken)) (bn : Nat) :
    ((∀ p ∈ params, p.1 = "id" ∨ p.1 = "ballotType" ∨ p.1 = "creator") →
     (∀ p ∈ params, p.1 = "ballotType" → ∀ u, p.2 = EthToken.uint u → u % U64_MOD ≤ 6) →
     ballotCreatedFromEthabiLog params bn ≠ .panicked) ∧
    (∀ u rest, 6 < u % U64_MOD →
      ballotCreatedFromEthabiLog (("ballotType", EthToken.uint u) :: rest) bn = .panicked) ∧
    (∀ name tok rest, ¬name = "id" → ¬name = "ballotType" → ¬name = "creator" →
      ballotCreatedFromEthabiLog ((name, tok) :: rest) bn = .panicked) ∧
    (ballotCreatedFromEthabiLog [] bn =
      .err (.failedToParseBallotCreatedLog ("missing `id`"))) ∧
    (∀ i b c bt, BallotType.fromTopic b = .ok bt →
      ballotCreatedFromEthabiLog
          [("id", .uint i), ("ballotType", .uint b), ("creator", .address c)] bn =
        .ok ⟨bn, i, bt, c⟩) := by
  refine ⟨?_, ?_, ?_, by rfl, ?_⟩
  · intro hnames htypes hcontra
    unfold ballotCreatedFromEthabiLog at hcontra
    cases hc : collectBallotParams params none none none with
    | panicked => exact collectBallotParams_no_panic params none none none hnames htypes hc
    | ok triple =>
      rw [hc] at hcontra
      obtain ⟨oi, ot, oc⟩ := triple
      cases oi <;> cases ot <;> cases oc <;> exact nomatch hcontra
  · intro u rest h
    unfold ballotCreatedFromEthabiLog collectBallotParams
    rw [if_neg (by decide), if_pos rfl]
    simp only [EthToken.toUint, fromTopic_panic_of_gt h]
  · intro name tok rest h1 h2 h3
    unfold ballotCreatedFromEthabiLog collectBallotParams
    rw [if_neg h1, if_neg h2, if_neg h3]
  · intro i b c bt hbt
    unfold ballotCreatedFromEthabiLog collectBallotParams
    rw [if_pos rfl]
    unfold collectBallotParams
    rw [if_neg (by decide), if_pos rfl]
    simp only [EthToken.toUint, hbt]
    unfold collectBallotParams
    rw [if_neg (by decide), if_neg (by decide), if_pos rfl]
    rfl

/-- C4 witness: a complete three-field log with in-range ballot type
code 4 decodes to the exact `threshold` record. -/
theorem c4_ballot_decode_behavior_witness :
    ballotCreatedFromEthabiLog
        [("id", .uint 1), ("ballotType", .uint 4), ("creator", .address 2)] 10 =
      .ok ⟨10, 1, .threshold, 2⟩ :=
  (c4_ballot_decode_behavior [] 10).2.2.2.2 1 4 2 .threshold rfl

/-- C8: within one window, the notifications collected across all
monitored contracts are merged into one list and sorted ascending by the
originating log's block number: the result is always a permutation of
the concatenated per-contract lists, pairwise sorted by block number;
and on the claim's example of block numbers `[105]` and `[103, 104]`
found across two contracts, the delivered order is `[103, 104, 105]`. -/
theorem c8_merge_sort_notifications :
    (∀ perContract : List (List Notification),
      (mergeWindowNotifications perContract).Perm perContract.flatten ∧
      List.Pairwise (fun n1 n2 => n1.log.blockNumber ≤ n2.log.blockNumber)
        (mergeWindowNotifications perContract)) ∧
    (mergeWindowNotifications
        [[⟨⟨105, 1, .addKey, 3⟩, "x"⟩],
         [⟨⟨103, 2, .addKey, 3⟩, "y"⟩, ⟨⟨104, 3, .addKey, 3⟩, "z"⟩]]).map
      (fun n => n.log.blockNumber) = [103, 104, 105] := by
  haveI htot : IsTotal Notification notifLe :=
    ⟨by intro a b; unfold notifLe; omega⟩
  haveI htrans : IsTrans Notification notifLe :=
    ⟨by intro a b c hab hbc; unfold notifLe at *; omega⟩
  refine ⟨fun perContract => ⟨List.perm_insertionSort _ _, ?_⟩, by decide⟩
  have hs : List.Sorted notifLe (mergeWindowNotifications perContract) :=
    List.sorted_insertionSort _ _
  exact hs.imp (by intro a b hab; exact hab)

/-- C9: every window emitted by a call after the first satisfies the
strict inequality `start < stop`: the advance loop keeps sleeping and
re-querying while the candidate start (`previous stop + 1`) is `≥` the
current stop, so a window is emitted only once the refreshed last-mined
block strictly exceeds the entering `stop_block + 1`. -/
theorem c9_later_window_strict (st : IterState) (env : NextEnv) (w : Nat × Nat)
    (st2 : IterState) (hfirst : st.onFirstIteration = false)
    (h : BlockchainIter.next st env = .retWindow w st2) :
    w.1 = st.stopBlock + 1 ∧ w.1 < w.2 ∧ st.stopBlock + 2 ≤ w.2 := by
  obtain ⟨h1, h2, _⟩ := next_later_window hfirst h
  exact ⟨h1, h2, by omega⟩

/-- C9 witness: from `stop_block = 5`, a refreshed head of `9` emits the
window `(6, 9)` with `6 < 9`. -/
theorem c9_later_window_strict_witness :
    (6 : Nat) = 5 + 1 ∧ (6 : Nat) < 9 ∧ (5 : Nat) + 2 ≤ 9 :=
  c9_later_window_strict ⟨0, 5, false⟩ ⟨[⟨[(true, true)], .ok 9⟩], true⟩ (6, 9)
    ⟨6, 9, false⟩ rfl (by decide)

/-- C10 counterexample: from `stop_block = 5`, a first re-query returns
`6` (one new block) and the loop continues; the second re-query fails.
`next` returns `Some(Err(..))` with `stop_block` advanced to `6` — not
unchanged at `5` as the claim states — and the following call computes
candidate start `6 + 1 = 7`, emitting `(7, 9)` next: block `6` is never
part of any emitted window, so iterating past the error skipped a
block. -/
theorem c10_error_counterexample :
    BlockchainIter.next ⟨0, 5, false⟩
        ⟨[⟨[(true, true)], .ok 6⟩, ⟨[(true, true)], .error .requestFailed⟩], true⟩ =
      .retErr .requestFailed ⟨6, 6, false⟩ ∧
    BlockchainIter.next ⟨6, 6, false⟩ ⟨[⟨[(true, true)], .ok 9⟩], true⟩ =
      .retWindow (7, 9) ⟨7, 9, false⟩ ∧
    (6 : Nat) ≠ 5 := by
  exact ⟨by decide, by decide, by decide⟩

/-- C10 (amended): an RPC failure during advancement returns
`Some(Err(..))` with `stop_block` equal to the last successful re-query
of that call — unchanged only when the failure hits the first re-query —
and the candidate start recorded in the state is the entering
`stop_block + 1`.  When `stop_block` is unchanged, a subsequent call
behaves exactly like the failed call would on the same environment
(it re-derives the same candidate start and resumes the same advance);
when an earlier re-query of the failed call advanced `stop_block`, the
subsequent call starts from that advanced value plus one, skipping the
blocks in between (see the counterexample). -/
theorem c10_error_resumption (st : IterState) (env : NextEnv) (e : Error)
    (st2 : IterState) (hfirst : st.onFirstIteration = false)
    (h : BlockchainIter.next st env = .retErr e st2) :
    st2.onFirstIteration = false ∧
    st2.startBlock = st.stopBlock + 1 ∧
    (st2.stopBlock = st.stopBlock ∨ ∃ l ∈ env.loops, l.pollResult = .ok st2.stopBlock) ∧
    (st2.stopBlock = st.stopBlock →
      ∀ env2, BlockchainIter.next st2 env2 = BlockchainIter.next st env2) := by
  unfold BlockchainIter.next at h
  rw [hfirst] at h
  simp only [Bool.false_eq_true, if_false] at h
  split at h
  · exact nomatch h
  · exact nomatch h
  · rename_i e2 stop hloop
    cases h
    refine ⟨rfl, rfl, runAdvanceLoop_rpcErr_stop hloop, ?_⟩
    intro hstop env2
    have hs2 : stop = st.stopBlock := hstop
    unfold BlockchainIter.next
    simp only [hfirst, Bool.false_eq_true, if_false]
    rw [hs2]
  · unfold emitCheck at h
    split at h
    · exact nomatch h
    · exact nomatch h

/-- C10 witness: an error on the very first re-query leaves `stop_block`
unchanged, and the recorded candidate start is `5 + 1 = 6`. -/
theorem c10_error_resumption_witness : (6 : Nat) = 5 + 1 :=
  (c10_error_resumption ⟨0, 5, false⟩ ⟨[⟨[(true, true)], .error .requestFailed⟩], true⟩
    .requestFailed ⟨6, 5, false⟩ rfl (by decide)).2.1

/-- C2 counterexample: an environment in which the cancellation flag
reads `false` everywhere (`allCancelled`), but the sleep's background
timer finishes before the foreground loop's first flag check
(`done_sleeping` observed `true` immediately — e.g. a zero/short
`block_time` or a descheduled foreground thread), so `sleep_or_ctrlc`
returns `FinishedSleeping`; the subsequent re-query fails and `next`
returns `Some(Err(..))` — not `None` as the claim states for every
post-cancellation call. -/
theorem c2_cancellation_counterexample :
    NextEnv.allCancelled ⟨[⟨[(true, false)], .error .requestFailed⟩], false⟩ ∧
    BlockchainIter.next ⟨0, 5, false⟩ ⟨[⟨[(true, false)], .error .requestFailed⟩], false⟩ =
      .retErr .requestFailed ⟨6, 5, false⟩ := by
  exact ⟨by decide, by decide⟩

/-- C2 (amended): once the cancellation flag reads `false` everywhere,
no call ever returns a window — conjunct (1); a first-iteration call
returns `None` at the pre-emission check — conjunct (2); and any later
call whose first sleep observes the flag before its timer completes
(the `done_sleeping = false` first observation) returns `None` via
`SleepExit::CtrlC` — conjunct (3).  Only the race in which every sleep's
timer beats the flag check can yield `Some(Err(..))` from a failing
re-query (see the counterexample); a window is impossible regardless. -/
theorem c2_cancellation_behavior (st : IterState) (env : NextEnv)
    (hc : env.allCancelled) :
    (∀ w st2, BlockchainIter.next st env ≠ .retWindow w st2) ∧
    (st.onFirstIteration = true →
      BlockchainIter.next st env = .retNone { st with onFirstIteration := false }) ∧
    (∀ l rest b obs, st.onFirstIteration = false → env.loops = l :: rest →
      l.sleepSched = (false, b) :: obs →
      BlockchainIter.next st env = .retNone ⟨st.stopBlock + 1, st.stopBlock, false⟩) := by
  obtain ⟨hrun, hobs⟩ := hc
  refine ⟨?_, ?_, ?_⟩
  · intro w st2 hcontra
    unfold BlockchainIter.next at hcontra
    split at hcontra
    · unfold emitCheck at hcontra
      rw [hrun] at hcontra
      exact nomatch hcontra
    · split at hcontra
      · exact nomatch hcontra
      · exact nomatch hcontra
      · exact nomatch hcontra
      · unfold emitCheck at hcontra
        rw [hrun] at hcontra
        exact nomatch hcontra
  · intro hf
    unfold BlockchainIter.next
    rw [hf]
    simp only [if_true]
    unfold emitCheck
    rw [hrun]
    rfl
  · intro l rest b obs hf hloops hsched
    have hb : b = false := by
      have := hobs l (by rw [hloops]; exact List.mem_cons_self l rest)
        (false, b) (by rw [hsched]; exact List.mem_cons_self _ obs)
      simpa using this
    have hsleep : sleepOrCtrlc l.sleepSched = some .ctrlc := by
      rw [hsched, hb]
      rfl
    unfold BlockchainIter.next
    rw [hf]
    simp only [Bool.false_eq_true, if_false]
    rw [hloops]
    unfold runAdvanceLoop
    rw [if_neg (by omega), hsleep]

/-- C2 witness: a cancelled environment whose sleep observes the cleared
flag returns `None`, leaving the advanced state behind. -/
theorem c2_cancellation_behavior_witness :
    BlockchainIter.next ⟨0, 5, false⟩ ⟨[⟨[(false, false)], .error .requestFailed⟩], false⟩ =
      .retNone ⟨6, 5, false⟩ :=
  (c2_cancellation_behavior ⟨0, 5, false⟩
      ⟨[⟨[(false, false)], .error .requestFailed⟩], false⟩ (by decide)).2.2
    ⟨[(false, false)], .error .requestFailed⟩ [] false [] rfl rfl rfl

/-- In an error- and cancellation-free run from a non-first state, the
emitted windows prefixed by the entering `(start_block, stop_block)`
pair form a contiguous strictly stop-increasing chain, and every window
is strictly increasing. -/
theorem runCalls_windows_chain :
    ∀ (envs : List NextEnv) (st : IterState),
    st.onFirstIteration = false →
    (∀ r ∈ runCalls st envs, r.isWindow = true) →
    (∀ w ∈ windowsOf (runCalls st envs), w.1 ≤ w.2) ∧
    List.Chain' (fun w w2 => w2.1 = w.2 + 1 ∧ w.2 < w2.2)
      ((st.startBlock, st.stopBlock) :: windowsOf (runCalls st envs)) := by
  intro envs
  induction envs with
  | nil =>
    intro st _ _
    simp [runCalls, windowsOf]
  | cons env rest ih =>
    intro st hfirst hw
    cases hnext : BlockchainIter.next st env with
    | stuck =>
      exfalso
      have := hw .stuck (by simp [runCalls, hnext])
      simp [NextResult.isWindow] at this
    | retErr e st2 =>
      exfalso
      have := hw (.retErr e st2) (by simp [runCalls, hnext])
      simp [NextResult.isWindow] at this
    | retNone st2 =>
      exfalso
      have := hw (.retNone st2) (by simp [runCalls, hnext])
      simp [NextResult.isWindow] at this
    | retWindow w st2 =>
      obtain ⟨hw1, hlt, hst2⟩ := next_later_window hfirst hnext
      have hrun : runCalls st (env :: rest) = .retWindow w st2 :: runCalls st2 rest := by
        simp [runCalls, hnext]
      have hwins : windowsOf (runCalls st (env :: rest)) =
          w :: windowsOf (runCalls st2 rest) := by
        rw [hrun]
        simp [windowsOf]
      obtain ⟨ihle, ihchain⟩ := ih st2 (by rw [hst2]) (by
        intro r hr
        exact hw r (by rw [hrun]; exact List.mem_cons_of_mem _ hr))
      have hpair : (st2.startBlock, st2.stopBlock) = w := by
        rw [hst2]
      rw [hwins]
      refine ⟨?_, ?_⟩
      · intro w2 hw2
        rcases List.mem_cons.mp hw2 with hww | htail
        · subst hww
          omega
        · exact ihle w2 htail
      · rw [List.chain'_cons]
        refine ⟨⟨hw1, by omega⟩, ?_⟩
        rw [hpair] at ihchain
        exact ihchain

/-- C1 counterexample: starting from a legally constructed iterator
(`Number(0)` against last-mined block `5`), a run whose second call hits
an RPC error after a successful head re-query emits the windows
`(0, 5)` and `(7, 9)`: consecutive emitted windows with
`window[1].start = 7 ≠ window[0].stop + 1 = 6` — block `6` falls in no
window, so the emitted windows are not contiguous as the claim states
for every sequence of emitted windows. -/
theorem c1_window_counterexample :
    blockchainIterNew (.number 0) (.ok 5) = .ok ⟨0, 5, true⟩ ∧
    windowsOf (runCalls ⟨0, 5, true⟩
      [⟨[], true⟩,
       ⟨[⟨[(true, true)], .ok 6⟩, ⟨[(true, true)], .error .requestFailed⟩], true⟩,
       ⟨[⟨[(true, true)], .ok 9⟩], true⟩]) = [(0, 5), (7, 9)] ∧
    ¬(7 : Nat) = 5 + 1 := by
  exact ⟨by rfl, by decide, by decide⟩

/-- C1 (amended): for an iterator obtained from a successful
`BlockchainIter::new` and any run in which every call emits a window (no
interleaved `Some(Err(..))` or `None` results), the emitted windows are
contiguous, non-overlapping and monotone: `window[i+1].start =
window[i].stop + 1`, `window[i].start ≤ window[i].stop`, and
`window[i].stop < window[i+1].stop` for consecutive windows.  (When an
RPC error interrupts a run after a successful head re-query, the
resumed traversal can skip blocks, breaking contiguity — see the
counterexample.) -/
theorem c1_window_chain (cfg : StartBlock) (last : Nat) (st0 : IterState)
    (envs : List NextEnv)
    (hnew : blockchainIterNew cfg (.ok last) = .ok st0)
    (hw : ∀ r ∈ runCalls st0 envs, r.isWindow = true) :
    (∀ w ∈ windowsOf (runCalls st0 envs), w.1 ≤ w.2) ∧
    List.Chain' (fun w w2 => w2.1 = w.2 + 1 ∧ w.2 < w2.2)
      (windowsOf (runCalls st0 envs)) := by
  obtain ⟨hfirst, hle, -⟩ := blockchainIterNew_ok_inv hnew
  cases envs with
  | nil => simp [runCalls, windowsOf]
  | cons env rest =>
    cases hnext : BlockchainIter.next st0 env with
    | stuck =>
      exfalso
      have := hw .stuck (by simp [runCalls, hnext])
      simp [NextResult.isWindow] at this
    | retErr e st2 =>
      exfalso
      have := hw (.retErr e st2) (by simp [runCalls, hnext])
      simp [NextResult.isWindow] at this
    | retNone st2 =>
      exfalso
      have := hw (.retNone st2) (by simp [runCalls, hnext])
      simp [NextResult.isWindow] at this
    | retWindow w st2 =>
      obtain ⟨hww, hst2⟩ := next_first_window hfirst hnext
      have hrun : runCalls st0 (env :: rest) = .retWindow w st2 :: runCalls st2 rest := by
        simp [runCalls, hnext]
      have hwins : windowsOf (runCalls st0 (env :: rest)) =
          w :: windowsOf (runCalls st2 rest) := by
        rw [hrun]
        simp [windowsOf]
      obtain ⟨ihle, ihchain⟩ := runCalls_windows_chain rest st2 (by rw [hst2]) (by
        intro r hr
        exact hw r (by rw [hrun]; exact List.mem_cons_of_mem _ hr))
      have hpair : (st2.startBlock, st2.stopBlock) = w := by
        rw [hst2, hww]
      rw [hwins]
      refine ⟨?_, ?_⟩
      · intro w2 hw2
        rcases List.mem_cons.mp hw2 with hw2 | htail
        · subst hw2
          rw [hww]
          exact hle
        · exact ihle w2 htail
      · rw [hpair] at ihchain
        exact ihchain

/-- C1 witness: an error-free two-call run from `Number(0)` against
last-mined block `5` emits `[(0, 5), (6, 9)]`, which is contiguous and
monotone. -/
theorem c1_window_chain_witness :
    List.Chain' (fun w w2 => w2.1 = w.2 + 1 ∧ w.2 < w2.2)
      (windowsOf (runCalls ⟨0, 5, true⟩
        [⟨[], true⟩, ⟨[⟨[(true, true)], .ok 9⟩], true⟩])) :=
  (c1_window_chain (.number 0) 5 ⟨0, 5, true⟩
    [⟨[], true⟩, ⟨[⟨[(true, true)], .ok 9⟩], true⟩] (by rfl) (by decide)).2

end PoaGov
